import Mathlib

set_option linter.dupNamespace false
set_option linter.unusedVariables false

/-!
Verification development for the pts schema-introspection tool.

The Go sources are shallowly embedded:
pure functions become Lean functions over the same data; Go strings that
are manipulated byte-wise (the identifier transformers of part_000) are
modelled as lists of byte values (Nat); Go `*T` fields become `Option T`;
Go maps become association lists, with a `nil` map distinguished from
an empty one by `Option`; database round-trips become oracle parameters
returning `Except String` results; compiled regular expressions stored
in the configuration become `String → Bool` matchers supplied by a
compile parameter. `strings.ToLower` / `strings.TrimSpace` are modelled
by their ASCII restrictions, which coincide with Go on every string the
program compares them against.
-/

namespace Pts

/-! ## Identifier Transformer (src/unnamed/part_000)

Go operates on the raw bytes of the string; we model a Go string as a
`List Nat` of byte values. 95 is the byte of the underscore, 65..90 are
the ASCII upper-case letters, 97..122 the lower-case ones. -/

/-- Loop body of Go `Pascal`: the Bool accumulator is the `next2upper`
flag (true at string start and after each underscore). -/
def pascalAux : Bool → List Nat → List Nat
  | _, [] => []
  | next2upper, c :: rest =>
    if c = 95 then pascalAux true rest
    else if next2upper = true ∧ 97 ≤ c ∧ c ≤ 122 then (c - 32) :: pascalAux false rest
    else c :: pascalAux false rest

/-- Go `Pascal` (part_000 lines 10-30): split on underscores, upper-case
the first lower-case letter of each segment, keep all other bytes. -/
def Pascal (s : List Nat) : List Nat :=
  if s = [] then [] else pascalAux true s

/-- Loop body of Go `Underline`: the Bool accumulator is true exactly for
the first character (the Go code tests `i > 0`). -/
def underlineAux : Bool → List Nat → List Nat
  | _, [] => []
  | first, c :: rest =>
    if 65 ≤ c ∧ c ≤ 90 then
      (if first then [c + 32] else [95, c + 32]) ++ underlineAux false rest
    else c :: underlineAux false rest

/-- Go `Underline` (part_000 lines 42-59): insert an underscore before
every upper-case letter except at position 0, and lower-case it. -/
def Underline (s : List Nat) : List Nat :=
  if s = [] then [] else underlineAux true s

/-- Go `Camel` (part_000 lines 33-39): `Pascal`, then lower-case the
first byte (Go lowers the one-byte slice `str[0:1]`). -/
def Camel (s : List Nat) : List Nat :=
  if s = [] then []
  else
    match Pascal s with
    | [] => []
    | c :: rest => (if 65 ≤ c ∧ c ≤ 90 then c + 32 else c) :: rest

/-- Bytes of a Lean string literal, for stating concrete test vectors
about the byte-level identifier transformers. -/
def strBytes (s : String) : List Nat :=
  s.data.map Char.toNat

/-! ## Data model (src/app/schema.go) -/

/-- ASCII restriction of Go `strings.ToLower`, the only case the program
exercises (it is applied to SQL type keywords and YES/NO flags). -/
def asciiLower (s : String) : String :=
  String.mk (s.data.map (fun c => if 'A' ≤ c ∧ c ≤ 'Z' then Char.ofNat (c.toNat + 32) else c))

/-- Go `strings.TrimSpace` over the character list (ASCII whitespace,
the only kind the program's configuration entries carry). -/
def trimSpace (s : String) : String :=
  String.mk (((s.data.dropWhile Char.isWhitespace).reverse.dropWhile Char.isWhitespace).reverse)

/-- Go `strings.HasPrefix` over the character list. -/
def strStartsWith (s p : String) : Bool :=
  p.data.isPrefixOf s.data

/-- Go `strings.HasSuffix` over the character list. -/
def strEndsWith (s p : String) : Bool :=
  p.data.reverse.isPrefixOf s.data.reverse

/-- Go struct `Column` (schema.go lines 438-462). Pointer-typed catalog
fields become `Option`; the non-owning back-pointer `table` is omitted per
the data model (Column never owns or extends its Table). The Go field
`Type` is rendered `Type'` because `Type` is reserved in Lean. -/
structure Column where
  Database : String := ""
  Table : String := ""
  Column : String := ""
  Comment : String := ""
  Type' : Option String := none
  DataType : Option String := none
  ColumnDefault : Option String := none
  IsNullable : Option String := none
  OrdinalPosition : Option Int := none
  CharacterMaximumLength : Option Int := none
  CharacterOctetLength : Option Int := none
  NumericPrecision : Option Int := none
  NumericScale : Option Int := none
  CharacterSetName : Option String := none
  CollationName : Option String := none
  ColumnKey : Option String := none
  Extra : Option String := none
  ColumnCamel : String := ""
  ColumnPascal : String := ""
  ColumnUnderline : String := ""
  GoType : String := ""
deriving DecidableEq, Repr

/-- Go struct `Table` (schema.go lines 425-436). -/
structure Table where
  Database : String := ""
  Table : String := ""
  Comment : String := ""
  Columns : List Column := []
  Defined : String := ""
  AutoIncrementColumn : String := ""
  TableGoTypeName : String := ""
  TableGoTypeNameTimestamp : String := ""
deriving DecidableEq, Repr

/-- Per-table entry of the `comments` configuration map
(schema.go lines 56-59): a fallback table comment and a map from column
name to fallback column comment. -/
structure CommentsEntry where
  Comment : String := ""
  Columns : List (String × String) := []
deriving DecidableEq, Repr

/-- Go map lookup over an association-list model of a map. -/
def lookupAssoc {α : Type} : List (String × α) → String → Option α
  | [], _ => none
  | (k, v) :: rest, key => if k = key then some v else lookupAssoc rest key

/-- Go struct `Config` (schema.go lines 36-69), restricted to the fields
the schema aggregator reads. `DisableTableMap` is `none` when the Go map
is nil (never allocated) and `some keys` when it holds `keys`;
`DisableTableRegexp` holds the compiled matchers. -/
structure Config where
  DisableTable : List String := []
  DisableTableMap : Option (List String) := none
  DisableTableRegexp : List (String → Bool) := []
  Comments : List (String × CommentsEntry) := []
  OnlyTable : List String := []

/-! ## Type Mapper (`Column.goType`, schema.go lines 464-507) -/

/-- Nullability resolution of `goType` (lines 465-468): nullable unless
`IsNullable` is present and lower-cases to "no". -/
def Column.nullableFlag (s : Pts.Column) : Bool :=
  match s.IsNullable with
  | none => true
  | some v => !(asciiLower v == "no")

/-- Type-keyword resolution of `goType` (lines 469-478): lower-cased
`DataType`, falling back to lower-cased `Type` when that is empty and
`Type` is present and non-empty (the SQLite case). -/
def Column.datatypeKeyword (s : Pts.Column) : String :=
  let d0 := match s.DataType with
    | some d => asciiLower d
    | none => ""
  if d0 = "" then
    match s.Type' with
    | some t => if t = "" then d0 else asciiLower t
    | none => d0
  else d0

/-- The switch of `goType` (lines 479-500), mapping a lower-cased type
keyword to a Go type; the default case yields "string". -/
def goTypeSwitch (datatype : String) : String :=
  if datatype = "tinyint" then "int8"
  else if datatype = "smallint" ∨ datatype = "smallserial" then "int16"
  else if datatype = "integer" ∨ datatype = "serial" ∨ datatype = "int" then "int"
  else if datatype = "bigint" ∨ datatype = "bigserial" then "int64"
  else if datatype = "decimal" ∨ datatype = "numeric" ∨ datatype = "real" ∨
          datatype = "double precision" ∨ datatype = "double" ∨ datatype = "float" then "float64"
  else if datatype = "char" ∨ datatype = "character" ∨ datatype = "character varying" ∨
          datatype = "text" ∨ datatype = "varchar" ∨ datatype = "enum" ∨
          datatype = "mediumtext" ∨ datatype = "longtext" then "string"
  else if datatype = "bool" ∨ datatype = "boolean" then "bool"
  else if datatype = "binary" ∨ datatype = "varbinary" ∨ datatype = "tinyblob" ∨
          datatype = "mediumblob" ∨ datatype = "longblob" ∨ datatype = "blob" ∨
          datatype = "bytea" then "[]byte"
  else "string"

/-- Go `Column.goType` (lines 464-507): resolve the keyword through the
switch and star-wrap the result for nullable columns unless it is
"[]byte". -/
def Column.goType (s : Pts.Column) : String :=
  let result := goTypeSwitch s.datatypeKeyword
  if s.nullableFlag then
    if result ≠ "[]byte" then "*" ++ result else result
  else result

/-- The type keywords named by some non-default case of the `goType`
switch. -/
def recognizedTypeKeywords : List String :=
  ["tinyint", "smallint", "smallserial", "integer", "serial", "int", "bigint", "bigserial",
   "decimal", "numeric", "real", "double precision", "double", "float",
   "char", "character", "character varying", "text", "varchar", "enum",
   "mediumtext", "longtext", "bool", "boolean",
   "binary", "varbinary", "tinyblob", "mediumblob", "longblob", "blob", "bytea"]

/-- The eight semantic target types of the Type Mapper. -/
def goTypeTargets : List String :=
  ["int8", "int16", "int", "int64", "float64", "string", "bool", "[]byte"]

/-! ## Deny-list configuration (schema.go lines 145-172) -/

/-- Go `initConfigDisableTable` (lines 146-158): trim each entry; an
entry bounded by a caret and a dollar is compiled (via the `compile`
parameter, standing for `regexp.MustCompile`) and appended to
`DisableTableRegexp`; any other entry allocates the map if needed and is
inserted as a literal key. -/
def initConfigDisableTable (compile : String → String → Bool) (cfg : Config) : Config :=
  cfg.DisableTable.foldl
    (fun acc v =>
      let v := trimSpace v
      if strStartsWith v "^" = true ∧ strEndsWith v "$" = true then
        { acc with DisableTableRegexp := acc.DisableTableRegexp ++ [compile v] }
      else
        match acc.DisableTableMap with
        | none => { acc with DisableTableMap := some [v] }
        | some m =>
          { acc with DisableTableMap := some (if m.contains v then m else m ++ [v]) })
    cfg

/-- Go `isTableDisabled` (lines 161-172): when the literal map is
non-nil, the answer is map membership alone (the regular expressions are
not consulted); only when the map is nil are the regular expressions
tried. -/
def isTableDisabled (cfg : Config) (table : String) : Bool :=
  match cfg.DisableTableMap with
  | some m => m.contains table
  | none => cfg.DisableTableRegexp.any (fun f => f table)

/-! ## Schema Aggregator filter (`GetAllTables`, schema.go lines 951-971) -/

/-- The allow-list set built by `GetAllTables` (lines 951-957): entries
trimmed, blanks dropped (map keys are unique; `contains` membership is
unaffected by duplicates). -/
def onlyTableSet (cfg : Config) : List String :=
  (cfg.OnlyTable.map trimSpace).filter (fun t => ¬t = "")

/-- The table-selection loop of `GetAllTables` (lines 958-971): with a
non-empty allow-list keep exactly the listed tables whose name is an
allow-list member; otherwise drop the tables `isTableDisabled` rejects.
The loop appends survivors in listing order, i.e. it is a filter. -/
def GetAllTablesFilter (cfg : Config) (lists : List Table) : List Table :=
  if ¬onlyTableSet cfg = [] then
    lists.filter (fun t => (onlyTableSet cfg).contains t.Table)
  else
    lists.filter (fun t => ¬isTableDisabled cfg t.Table)

/-! ## Comment backfill (`App.Run`, schema.go lines 306-327) -/

/-- Per-column backfill (lines 317-324): a configured fallback is applied
only when it is present, non-empty, and the column's comment is empty or
equal to the column's own name. -/
def backfillColumn (columnsCfg : List (String × String)) (c : Pts.Column) : Pts.Column :=
  match lookupAssoc columnsCfg c.Column with
  | none => c
  | some vb =>
    if ¬vb = "" ∧ (c.Comment = "" ∨ c.Comment = c.Column) then
      { c with Comment := vb }
    else c

/-- Per-table backfill (lines 308-327): look the table up in the
`comments` configuration; apply the table-level fallback only when
non-empty and the table's comment is empty or equal to the table's own
name; then run the column loop when the per-column map is non-empty. -/
def backfillTable (comments : List (String × CommentsEntry)) (t : Pts.Table) : Pts.Table :=
  match lookupAssoc comments t.Table with
  | none => t
  | some va =>
    let t1 :=
      if ¬va.Comment = "" ∧ (t.Comment = "" ∨ t.Comment = t.Table) then
        { t with Comment := va.Comment }
      else t
    if ¬va.Columns = [] then
      { t1 with Columns := t1.Columns.map (backfillColumn va.Columns) }
    else t1

/-! ## MySQL adapter (schema.go lines 545-639) -/

/-- Go `SchemaMysql.QueryColumns` (lines 593-604): an empty schema or
table name short-circuits to an empty, error-free result; otherwise the
scanned rows of the information_schema query (the `db` oracle) are
returned. -/
def SchemaMysql.QueryColumns (db : String → String → Except String (List Pts.Column))
    (schema table : String) : Except String (List Pts.Column) :=
  if schema = "" ∨ table = "" then .ok []
  else db schema table

/-! ## PostgreSQL adapter (schema.go lines 641-818) -/

/-- Go regexp `pgsqlSeq` (line 644): full-string match of
nextval, an opening parenthesis and quote, a non-empty run of ASCII
letters, digits or underscores (the capture), then a quote,
double-colon regclass and closing parenthesis; returns the capture. -/
def pgsqlSeqMatch (s : String) : Option String :=
  let pre := "nextval('".data
  let suf := "'::regclass)".data
  let cs := s.data
  if pre.isPrefixOf cs = true ∧ suf.reverse.isPrefixOf cs.reverse = true ∧
      pre.length + suf.length < cs.length then
    let mid := (cs.drop pre.length).take (cs.length - pre.length - suf.length)
    if mid.all (fun c => c.isAlphanum || c == '_') then some (String.mk mid) else none
  else none

/-- The quote-stripping of the sequence scan (lines 656-658): Go replaces
all embedded double quotes (guarded by a Contains test, which equals an
unconditional ReplaceAll). -/
def stripQuotes (s : String) : String :=
  String.mk (s.data.filter (fun c => ¬c = '"'))

/-- One iteration of the sequence-detection loop of
`SchemaPostgresql.QueryTableDefineSql` (lines 652-666): a column with a
default that (quote-stripped) matches `pgsqlSeq` overwrites the pending
CREATE SEQUENCE line and the auto-increment column name. -/
def pgSeqScanStep (acc : String × String) (c : Pts.Column) : String × String :=
  match c.ColumnDefault with
  | none => acc
  | some d =>
    match pgsqlSeqMatch (stripQuotes d) with
    | some n => ("CREATE SEQUENCE IF NOT EXISTS " ++ n ++ " START 1;\n", c.Column)
    | none => acc

/-- The in-place quote-stripping of a column's default performed by the
same loop. -/
def pgDefaultStrip (c : Pts.Column) : Pts.Column :=
  match c.ColumnDefault with
  | none => c
  | some d => { c with ColumnDefault := some (stripQuotes d) }

/-- The three sequential ReplaceAll rewrites of
`SchemaPostgresql.QueryTableDefineSql` (lines 680-682), turning the
CREATE statements of the procedure's output into IF NOT EXISTS form. -/
def pgReplaceDefines (result : String) : String :=
  ((result.replace "CREATE TABLE" "CREATE TABLE IF NOT EXISTS").replace
    "CREATE INDEX" "CREATE INDEX IF NOT EXISTS").replace
    "CREATE UNIQUE INDEX" "CREATE UNIQUE INDEX IF NOT EXISTS"

/-- Go `SchemaPostgresql.QueryTableDefineSql` (lines 650-686): scan the
columns for a sequence-backed default, fetch the DDL body via the
`show_create_table_schema` procedure (the `showCreate` oracle result),
rewrite the CREATE statements to IF NOT EXISTS form, and prepend the
CREATE SEQUENCE line. Returns the mutated table and the definition. -/
def SchemaPostgresql.QueryTableDefineSql (showCreate : Except String String)
    (t : Pts.Table) : Except String (Pts.Table × String) :=
  let acc := t.Columns.foldl pgSeqScanStep ("", t.AutoIncrementColumn)
  let cols := t.Columns.map pgDefaultStrip
  match showCreate with
  | .error e => .error e
  | .ok result =>
    let defined := acc.1 ++ pgReplaceDefines result
    .ok ({ t with Columns := cols, AutoIncrementColumn := acc.2, Defined := defined }, defined)

/-- The per-column comment enrichment of `SchemaPostgresql.QueryColumns`
(lines 760-780): empty column names are skipped; otherwise the comment
query (the `dbComment` oracle, `none` when no row is returned) fills the
comment. -/
def pgEnrichComment (dbComment : String → String → Except String (Option String))
    (table : String) (v : Pts.Column) : Except String Pts.Column :=
  if v.Column = "" then .ok v
  else
    match dbComment table v.Column with
    | .error e => .error e
    | .ok none => .ok v
    | .ok (some cmt) => .ok { v with Comment := cmt }

/-- Go `SchemaPostgresql.QueryColumns` (lines 727-782): an empty schema
or table name short-circuits to an empty, error-free result; otherwise
the information_schema rows (the `dbRows` oracle) are enriched with
per-column comments. -/
def SchemaPostgresql.QueryColumns (dbRows : String → String → Except String (List Pts.Column))
    (dbComment : String → String → Except String (Option String))
    (schema table : String) : Except String (List Pts.Column) :=
  if schema = "" ∨ table = "" then .ok []
  else
    match dbRows schema table with
    | .error e => .error e
    | .ok cols => cols.mapM (pgEnrichComment dbComment table)

/-! ## SQLite adapter (schema.go lines 820-935) -/

/-- One row of `PRAGMA table_info` as scanned by
`SchemaSqlite.QueryColumns` (lines 866-881). -/
structure SqliteRow where
  cid : Int := 0
  name : String := ""
  columnType : String := ""
  notNull : Int := 0
  defaultValue : Option String := none
  pk : Int := 0
deriving DecidableEq, Repr

/-- The Column built from one PRAGMA row (lines 885-904): nullability
from notnull, the declared type in `Type`, and the extra flag
auto_increment for every primary-key column (pk greater than zero). -/
def sqliteRowColumn (table : String) (r : SqliteRow) : Pts.Column :=
  { Table := table
    Column := r.name
    OrdinalPosition := some r.cid
    Type' := some r.columnType
    IsNullable := some (if r.notNull > 0 then "no" else "yes")
    ColumnDefault := r.defaultValue
    Extra := if r.pk > 0 then some "auto_increment" else none }

/-- Go `SchemaSqlite.QueryColumns` (lines 860-913): only an empty table
name short-circuits (the schema argument is ignored); otherwise the
PRAGMA rows (the `db` oracle) are converted to columns. -/
def SchemaSqlite.QueryColumns (db : String → Except String (List SqliteRow))
    (schema table : String) : Except String (List Pts.Column) :=
  if table = "" then .ok []
  else
    match db table with
    | .error e => .error e
    | .ok rows => .ok (rows.map (sqliteRowColumn table))

/-- One iteration of the auto-increment scan of
`SchemaSqlite.QuerySchemas` (lines 921-925): the first auto_increment
column (while the accumulator is still empty) is recorded. -/
def sqliteAutoStep (acc : String) (c : Pts.Column) : String :=
  if acc = "" ∧ c.Extra = some "auto_increment" then c.Column else acc

/-- Per-table body of Go `SchemaSqlite.QuerySchemas` (lines 915-929):
fetch the columns, record the first auto_increment column, attach the
columns. -/
def sqliteEnrichTable (db : String → Except String (List SqliteRow))
    (t : Pts.Table) : Except String Pts.Table :=
  match SchemaSqlite.QueryColumns db t.Database t.Table with
  | .error e => .error e
  | .ok columns =>
    .ok { t with
          AutoIncrementColumn := columns.foldl sqliteAutoStep t.AutoIncrementColumn
          Columns := columns }

/-- Go `SchemaSqlite.QuerySchemas` (lines 915-929): sequential
enrichment of every table, stopping at the first error. -/
def SchemaSqlite.QuerySchemas (db : String → Except String (List SqliteRow))
    (tables : List Pts.Table) : Except String (List Pts.Table) :=
  tables.mapM (sqliteEnrichTable db)

/-! ## C8: identifier-transformer test vectors -/

/-- C8: the identifier transformers satisfy the spec's concrete test
vectors: Pascal("user_name") = "UserName", Camel("user_name") =
"userName", Underline("UserName") = "user_name", Pascal("") = "". -/
theorem c8_transformer_test_vectors :
    Pascal (strBytes "user_name") = strBytes "UserName"
    ∧ Camel (strBytes "user_name") = strBytes "userName"
    ∧ Underline (strBytes "UserName") = strBytes "user_name"
    ∧ Pascal (strBytes "") = strBytes "" := by
  refine ⟨by decide, by decide, by decide, by decide⟩

/-! ## C7: Pascal after Underline is the identity on PascalCase input -/

/-- On an underscore-free tail, `pascalAux` with the flag down inverts
`underlineAux` with the flag down. -/
lemma pascalAux_underlineAux (rest : List Nat) (h : ∀ x ∈ rest, x ≠ 95) :
    pascalAux false (underlineAux false rest) = rest := by
  induction rest with
  | nil => rfl
  | cons c r ih =>
    have hc : c ≠ 95 := h c (List.mem_cons_self c r)
    have hr : ∀ x ∈ r, x ≠ 95 := fun x hx => h x (List.mem_cons_of_mem c hx)
    by_cases hu : 65 ≤ c ∧ c ≤ 90
    · have h1 : underlineAux false (c :: r) = 95 :: (c + 32) :: underlineAux false r := by
        simp [underlineAux, hu]
      have h2 : pascalAux false (95 :: (c + 32) :: underlineAux false r)
          = pascalAux true ((c + 32) :: underlineAux false r) := by
        simp [pascalAux]
      have hne : ¬(c + 32 = 95) := by omega
      have h97 : 97 ≤ c + 32 := by omega
      have h122 : c + 32 ≤ 122 := by omega
      have hsub : c + 32 - 32 = c := by omega
      have h3 : pascalAux true ((c + 32) :: underlineAux false r)
          = c :: pascalAux false (underlineAux false r) := by
        simp [pascalAux, hne, h97, h122, hsub]
      rw [h1, h2, h3, ih hr]
    · have h1 : underlineAux false (c :: r) = c :: underlineAux false r := by
        simp [underlineAux, hu]
      have h2 : pascalAux false (c :: underlineAux false r)
          = c :: pascalAux false (underlineAux false r) := by
        simp [pascalAux, hc]
      rw [h1, h2, ih hr]

/-- C7: for an identifier that begins with an ASCII upper-case byte and
contains no underscore, Pascal after Underline returns it unchanged. -/
theorem c7_pascal_underline_roundtrip (c : Nat) (rest : List Nat)
    (h1 : 65 ≤ c) (h2 : c ≤ 90) (h : ∀ x ∈ c :: rest, x ≠ 95) :
    Pascal (Underline (c :: rest)) = c :: rest := by
  have hr : ∀ x ∈ rest, x ≠ 95 := fun x hx => h x (List.mem_cons_of_mem c hx)
  have step1 : Underline (c :: rest) = (c + 32) :: underlineAux false rest := by
    simp [Underline, underlineAux, h1, h2]
  have hne : ¬(c + 32 = 95) := by omega
  have h97 : 97 ≤ c + 32 := by omega
  have h122 : c + 32 ≤ 122 := by omega
  have hsub : c + 32 - 32 = c := by omega
  have step2 : Pascal ((c + 32) :: underlineAux false rest)
      = c :: pascalAux false (underlineAux false rest) := by
    simp [Pascal, pascalAux, hne, h97, h122, hsub]
  rw [step1, step2, pascalAux_underlineAux rest hr]

/-- C7 witness: the roundtrip theorem applied to the bytes of
"UserName" (85 is the byte of the letter U). -/
theorem c7_witness :
    Pascal (Underline (85 :: strBytes "serName")) = 85 :: strBytes "serName" :=
  c7_pascal_underline_roundtrip 85 (strBytes "serName")
    (by decide) (by decide) (by decide)

/-! ## C1: deny-list evaluation (code bug)

`isTableDisabled` returns early on literal-map membership whenever the
literal map is non-nil, so a configuration holding both a literal and a
pattern never consults its patterns; the spec (and the program's own
example configuration, which mixes both forms) requires a pattern match
to drop the table as well. -/

/-- Regexp compilation oracle for the C1 configuration: the pattern
caret log underscore dot star dollar matches exactly the strings that
start with log underscore. -/
def c1compile : String → String → Bool := fun p s =>
  if p = "^log_.*$" then strStartsWith s "log_" else false

/-- The C1 deny-list configuration: one literal ("log_2023") and one
pattern, as produced by `initConfigDisableTable`. -/
def c1config : Config :=
  initConfigDisableTable c1compile { DisableTable := ["log_2023", "^log_.*$"] }

/-- C1: with a deny-list holding both a literal and a pattern, the table
"log_x" matches the compiled pattern, yet `isTableDisabled` keeps it
(returns false), because the literal map short-circuits; the same
matcher list with a nil literal map would drop it. The spec says a
pattern match always drops the table. -/
theorem c1_denylist_code_bug :
    isTableDisabled c1config "log_x" = false
    ∧ isTableDisabled c1config "log_2023" = true
    ∧ c1config.DisableTableRegexp.any (fun f => f "log_x") = true
    ∧ isTableDisabled ({ DisableTable := c1config.DisableTable,
                         DisableTableRegexp := c1config.DisableTableRegexp } : Config)
        "log_x" = true := by
  refine ⟨by decide, by decide, by decide, by decide⟩

/-! ## C2: QueryColumns on empty names (corrected) -/

/-- C2 counterexample data: a PRAGMA oracle returning one row for every
table name. -/
def c2row : SqliteRow := { name := "id", columnType := "INTEGER" }

/-- C2 counterexample oracle. -/
def c2db : String → Except String (List SqliteRow) := fun _ => .ok [c2row]

/-- C2 counterexample: the SQLite adapter's QueryColumns, called with an
empty schema name and the non-empty table name "t", still issues the
PRAGMA query and returns its column, not the empty sequence the claim
requires. -/
theorem c2_counterexample :
    SchemaSqlite.QueryColumns c2db "" "t" = .ok [sqliteRowColumn "t" c2row]
    ∧ ¬SchemaSqlite.QueryColumns c2db "" "t" = .ok ([] : List Pts.Column) := by
  refine ⟨rfl, ?_⟩
  intro hcontra
  have h2 : (Except.ok [sqliteRowColumn "t" c2row] : Except String (List Pts.Column))
      = Except.ok [] :=
    Eq.trans (rfl : Except.ok [sqliteRowColumn "t" c2row]
      = SchemaSqlite.QueryColumns c2db "" "t").symm.symm hcontra
  simp at h2

/-- C2 amended: the MySQL and PostgreSQL adapters return an empty column
sequence and no error (consulting no oracle) whenever the schema or the
table name is empty; the SQLite adapter short-circuits only on an empty
table name (its schema argument is ignored). -/
theorem c2_querycolumns_empty_guard
    (mdb : String → String → Except String (List Pts.Column))
    (pdbRows : String → String → Except String (List Pts.Column))
    (pdbComment : String → String → Except String (Option String))
    (sdb : String → Except String (List SqliteRow))
    (schema table : String) (h : schema = "" ∨ table = "") :
    SchemaMysql.QueryColumns mdb schema table = .ok []
    ∧ SchemaPostgresql.QueryColumns pdbRows pdbComment schema table = .ok []
    ∧ (table = "" → SchemaSqlite.QueryColumns sdb schema table = .ok []) := by
  refine ⟨?_, ?_, ?_⟩
  · unfold SchemaMysql.QueryColumns
    rw [if_pos h]
  · unfold SchemaPostgresql.QueryColumns
    rw [if_pos h]
  · intro ht
    unfold SchemaSqlite.QueryColumns
    rw [if_pos ht]

/-- C2 witness: the guard theorem at an empty schema (MySQL and
PostgreSQL) and at an empty table name (SQLite). -/
theorem c2_witness :
    SchemaMysql.QueryColumns (fun _ _ => .ok []) "" "t" = .ok []
    ∧ SchemaPostgresql.QueryColumns (fun _ _ => .ok []) (fun _ _ => .ok none) "" "t" = .ok []
    ∧ SchemaSqlite.QueryColumns (fun _ => .ok []) "db" "" = .ok [] := by
  have hA := c2_querycolumns_empty_guard (fun _ _ => .ok []) (fun _ _ => .ok [])
    (fun _ _ => .ok none) (fun _ => .ok []) "" "t" (Or.inl rfl)
  have hB := c2_querycolumns_empty_guard (fun _ _ => .ok []) (fun _ _ => .ok [])
    (fun _ _ => .ok none) (fun _ => .ok []) "db" "" (Or.inr rfl)
  exact ⟨hA.1, hA.2.1, hB.2.2 rfl⟩

/-! ## C3: allow-list precedence in GetAllTables -/

/-- C3: when the allow-list holds a non-blank entry, the table filter of
GetAllTables keeps exactly the listed tables whose name belongs to the
(trimmed, non-blank) allow-list set, in listing order (the result is a
sublist of the listing), and is independent of every deny-list field. -/
theorem c3_allowlist_precedence (cfg : Config) (lists : List Pts.Table)
    (h : ¬onlyTableSet cfg = []) :
    GetAllTablesFilter cfg lists
      = lists.filter (fun t => (onlyTableSet cfg).contains t.Table)
    ∧ (∀ m r, GetAllTablesFilter
        ({ cfg with DisableTableMap := m, DisableTableRegexp := r } : Config) lists
        = lists.filter (fun t => (onlyTableSet cfg).contains t.Table))
    ∧ List.Sublist (GetAllTablesFilter cfg lists) lists := by
  have hset : ∀ m r,
      onlyTableSet ({ cfg with DisableTableMap := m, DisableTableRegexp := r } : Config)
        = onlyTableSet cfg :=
    fun m r => rfl
  refine ⟨?_, ?_, ?_⟩
  · unfold GetAllTablesFilter
    rw [if_pos h]
  · intro m r
    unfold GetAllTablesFilter
    rw [hset m r, if_pos h]
  · unfold GetAllTablesFilter
    rw [if_pos h]
    exact List.filter_sublist lists

/-- C3 witness data: the allow-list keeps only "users"; both deny
matchers would match "users" itself and one also matches
"disabled_users". -/
def c3config : Config :=
  { OnlyTable := ["users"],
    DisableTable := ["^users$", "^disabled_.*$"],
    DisableTableRegexp := [fun s => s == "users", fun s => strStartsWith s "disabled_"] }

/-- C3 witness listing. -/
def c3lists : List Pts.Table := [{ Table := "disabled_users" }, { Table := "users" }]

/-- C3 witness: the allow-list keeps exactly "users" even though a deny
matcher matches it, and drops "disabled_users". -/
theorem c3_witness :
    GetAllTablesFilter c3config c3lists = [{ Table := "users" }]
    ∧ c3config.DisableTableRegexp.any (fun f => f "users") = true
    ∧ c3config.DisableTableRegexp.any (fun f => f "disabled_users") = true := by
  have h := c3_allowlist_precedence c3config c3lists (by decide)
  refine ⟨?_, by decide, by decide⟩
  rw [h.1]
  decide

/-! ## C4 and C9: the Type Mapper -/

/-- The switch of `goType` only produces the eight target types. -/
lemma goTypeSwitch_mem (d : String) : goTypeSwitch d ∈ goTypeTargets := by
  unfold goTypeSwitch
  split_ifs <;> decide

/-- An unrecognized keyword falls to the default case of the switch. -/
lemma goTypeSwitch_default (d : String) (h : ¬d ∈ recognizedTypeKeywords) :
    goTypeSwitch d = "string" := by
  unfold goTypeSwitch
  split_ifs with h1 h2 h3 h4 h5 h6 h7 h8
  · subst h1; exact absurd (by decide) h
  · rcases h2 with h2 | h2 <;> (subst h2; exact absurd (by decide) h)
  · rcases h3 with h3 | h3 | h3 <;> (subst h3; exact absurd (by decide) h)
  · rcases h4 with h4 | h4 <;> (subst h4; exact absurd (by decide) h)
  · rcases h5 with h5 | h5 | h5 | h5 | h5 | h5 <;> (subst h5; exact absurd (by decide) h)
  · rcases h6 with h6 | h6 | h6 | h6 | h6 | h6 | h6 | h6 <;>
      (subst h6; exact absurd (by decide) h)
  · rcases h7 with h7 | h7 <;> (subst h7; exact absurd (by decide) h)
  · rcases h8 with h8 | h8 | h8 | h8 | h8 | h8 | h8 <;>
      (subst h8; exact absurd (by decide) h)
  · rfl

/-- `goType` star-wraps the switch result exactly for nullable columns
whose resolved type is not the byte sequence. -/
lemma goType_wrap (c : Pts.Column) :
    c.goType = (if c.nullableFlag = true ∧ ¬goTypeSwitch c.datatypeKeyword = "[]byte"
      then "*" ++ goTypeSwitch c.datatypeKeyword else goTypeSwitch c.datatypeKeyword) := by
  unfold Column.goType
  by_cases hn : c.nullableFlag = true <;>
    by_cases hb : goTypeSwitch c.datatypeKeyword = "[]byte" <;>
      simp [hn, hb]

/-- C4: the resolved type keyword maps through the switch into the eight
target types, unrecognized keywords map to "string", and the final
semantic type is the switch result star-wrapped exactly when the column
is nullable and the result is not the byte sequence. -/
theorem c4_gotype_mapping (c : Pts.Column) :
    goTypeSwitch c.datatypeKeyword ∈ goTypeTargets
    ∧ (¬c.datatypeKeyword ∈ recognizedTypeKeywords →
        goTypeSwitch c.datatypeKeyword = "string")
    ∧ c.goType = (if c.nullableFlag = true ∧ ¬goTypeSwitch c.datatypeKeyword = "[]byte"
        then "*" ++ goTypeSwitch c.datatypeKeyword else goTypeSwitch c.datatypeKeyword) :=
  ⟨goTypeSwitch_mem _, goTypeSwitch_default _, goType_wrap _⟩

/-- C4 witness column: an unrecognized nullable keyword. -/
def c4column : Pts.Column := { DataType := some "JSONB", IsNullable := some "YES" }

/-- C4 witness: the mapping theorem at a nullable column of the
unrecognized keyword JSONB resolves to the optional string type. -/
theorem c4_witness :
    goTypeSwitch c4column.datatypeKeyword ∈ goTypeTargets
    ∧ goTypeSwitch c4column.datatypeKeyword = "string"
    ∧ c4column.goType = "*string" := by
  have h := c4_gotype_mapping c4column
  refine ⟨h.1, h.2.1 (by decide), ?_⟩
  rw [h.2.2]
  decide

/-- C9: nullability resolution — a nil nullability attribute, or any
value that does not lower-case to "no", marks the column nullable, whose
type is star-wrapped unless it is the byte sequence; only "no"
(case-insensitively) yields the bare type. -/
theorem c9_nullability (c : Pts.Column) :
    (c.IsNullable = none → c.nullableFlag = true)
    ∧ (∀ v, c.IsNullable = some v → ¬asciiLower v = "no" → c.nullableFlag = true)
    ∧ (∀ v, c.IsNullable = some v → asciiLower v = "no" → c.nullableFlag = false)
    ∧ (c.nullableFlag = true →
        c.goType = (if goTypeSwitch c.datatypeKeyword = "[]byte" then "[]byte"
          else "*" ++ goTypeSwitch c.datatypeKeyword))
    ∧ (c.nullableFlag = false → c.goType = goTypeSwitch c.datatypeKeyword) := by
  refine ⟨?_, ?_, ?_, ?_, ?_⟩
  · intro h
    simp [Column.nullableFlag, h]
  · intro v hv hlow
    simp [Column.nullableFlag, hv, hlow]
  · intro v hv hlow
    simp [Column.nullableFlag, hv, hlow]
  · intro h
    rw [goType_wrap c]
    by_cases hb : goTypeSwitch c.datatypeKeyword = "[]byte" <;> simp [h, hb]
  · intro h
    rw [goType_wrap c]
    simp [h]

/-- C9 witness column: nullability attribute "Yes". -/
def c9column : Pts.Column := { DataType := some "bigint", IsNullable := some "Yes" }

/-- C9 witness: the nullability theorem at a bigint column whose
nullability attribute is "Yes" yields the optional 64-bit integer. -/
theorem c9_witness :
    Column.nullableFlag c9column = true ∧ Column.goType c9column = "*int64" := by
  have h := c9_nullability c9column
  have h1 : Column.nullableFlag c9column = true := h.2.1 "Yes" rfl (by decide)
  refine ⟨h1, ?_⟩
  rw [h.2.2.2.1 h1]
  decide

/-! ## C5: comment backfill never overwrites real comments -/

/-- `backfillColumn` keeps the column name. -/
lemma backfillColumn_column (cols : List (String × String)) (c : Pts.Column) :
    (backfillColumn cols c).Column = c.Column := by
  unfold backfillColumn
  rcases hl : lookupAssoc cols c.Column with _ | vb
  · rfl
  · by_cases hc : ¬vb = "" ∧ (c.Comment = "" ∨ c.Comment = c.Column) <;> simp [hc]

/-- `backfillColumn` keeps a non-empty comment different from the
column's own name. -/
lemma backfillColumn_preserves (cols : List (String × String)) (c : Pts.Column)
    (h : ¬c.Comment = "" ∧ ¬c.Comment = c.Column) :
    (backfillColumn cols c).Comment = c.Comment := by
  have hcond : ¬(¬(default : String) = "" ∧ (c.Comment = "" ∨ c.Comment = c.Column)) ∧
      True := ⟨fun hc => hc.2.elim h.1 h.2, trivial⟩
  unfold backfillColumn
  rcases hl : lookupAssoc cols c.Column with _ | vb
  · rfl
  · have hcond2 : ¬(¬vb = "" ∧ (c.Comment = "" ∨ c.Comment = c.Column)) :=
      fun hc => hc.2.elim h.1 h.2
    simp [hcond2]

/-- The table-level backfill keeps the comment intact whenever the
stored comment is non-empty and differs from the table's own name. -/
lemma backfillTable_comment (comments : List (String × CommentsEntry)) (t : Pts.Table)
    (h : ¬t.Comment = "" ∧ ¬t.Comment = t.Table) :
    (backfillTable comments t).Comment = t.Comment := by
  unfold backfillTable
  rcases hl : lookupAssoc comments t.Table with _ | va
  · rfl
  · have hcond : ¬(¬va.Comment = "" ∧ (t.Comment = "" ∨ t.Comment = t.Table)) :=
      fun hc => hc.2.elim h.1 h.2
    by_cases hc2 : ¬va.Columns = [] <;> simp [hcond, hc2]

/-- The column sequence after table-level backfill is either untouched
or the image of the per-column backfill. -/
lemma backfillTable_columns (comments : List (String × CommentsEntry)) (t : Pts.Table) :
    (backfillTable comments t).Columns = t.Columns
    ∨ ∃ cols, (backfillTable comments t).Columns = t.Columns.map (backfillColumn cols) := by
  unfold backfillTable
  rcases hl : lookupAssoc comments t.Table with _ | va
  · left; rfl
  · by_cases hc1 : ¬va.Comment = "" ∧ (t.Comment = "" ∨ t.Comment = t.Table) <;>
      by_cases hc2 : ¬va.Columns = []
    · right; exact ⟨va.Columns, by simp [hc1, hc2]⟩
    · left; simp [hc1, hc2]
    · right; exact ⟨va.Columns, by simp [hc1, hc2]⟩
    · left; simp [hc1, hc2]

/-- C5: the backfill leaves a table comment unchanged when it is
non-empty and not the table's own name, keeps the number of columns, and
leaves every column comment unchanged (at its position, with its name)
when that comment is non-empty and not the column's own name. -/
theorem c5_comment_backfill (comments : List (String × CommentsEntry)) (t : Pts.Table) :
    ((¬t.Comment = "" ∧ ¬t.Comment = t.Table) →
      (backfillTable comments t).Comment = t.Comment)
    ∧ (backfillTable comments t).Columns.length = t.Columns.length
    ∧ (∀ (i : Nat) (c : Pts.Column), t.Columns[i]? = some c →
        (¬c.Comment = "" ∧ ¬c.Comment = c.Column) →
        ∃ c', ((backfillTable comments t).Columns)[i]? = some c'
          ∧ c'.Comment = c.Comment ∧ c'.Column = c.Column) := by
  refine ⟨backfillTable_comment comments t, ?_, ?_⟩
  · rcases backfillTable_columns comments t with hcols | ⟨cols, hcols⟩
    · rw [hcols]
    · rw [hcols, List.length_map]
  · intro i c hi hc
    rcases backfillTable_columns comments t with hcols | ⟨cols, hcols⟩
    · refine ⟨c, ?_, rfl, rfl⟩
      rw [hcols]
      exact hi
    · refine ⟨backfillColumn cols c, ?_, backfillColumn_preserves cols c hc,
        backfillColumn_column cols c⟩
      rw [hcols, List.getElem?_map, hi]
      rfl

/-- C5 witness configuration: fallback comments for table "users" and
its column "id". -/
def c5comments : List (String × CommentsEntry) :=
  [("users", { Comment := "other", Columns := [("id", "other col")] })]

/-- C5 witness table: both comments are real (non-empty, not
self-referential). -/
def c5table : Pts.Table :=
  { Table := "users", Comment := "real comment",
    Columns := [{ Column := "id", Comment := "real col comment" }] }

/-- C5 witness: applying the configured fallbacks to the witness table
changes neither the table comment nor the column comment. -/
theorem c5_witness :
    (backfillTable c5comments c5table).Comment = "real comment"
    ∧ (∃ c', ((backfillTable c5comments c5table).Columns)[0]? = some c'
        ∧ c'.Comment = "real col comment" ∧ c'.Column = "id") := by
  have h := c5_comment_backfill c5comments c5table
  exact ⟨h.1 (by decide),
    h.2.2 0 { Column := "id", Comment := "real col comment" } rfl (by decide)⟩

/-! ## C6: PostgreSQL sequence-backed auto-increment detection -/

/-- The sequence-match outcome of one column: its default, quote-stripped,
matched against the `pgsqlSeq` pattern. -/
def matchesSeq (c : Pts.Column) : Option String :=
  match c.ColumnDefault with
  | none => none
  | some d => pgsqlSeqMatch (stripQuotes d)

/-- The loop body of the sequence scan, expressed through `matchesSeq`. -/
lemma pgSeqScanStep_eq (acc : String × String) (c : Pts.Column) :
    pgSeqScanStep acc c = (match matchesSeq c with
      | some n => ("CREATE SEQUENCE IF NOT EXISTS " ++ n ++ " START 1;\n", c.Column)
      | none => acc) := by
  unfold pgSeqScanStep matchesSeq
  rcases c.ColumnDefault with _ | d
  · rfl
  · rfl

/-- Columns without a sequence-backed default leave the scan accumulator
unchanged. -/
lemma foldl_pgSeqScanStep_none (l : List Pts.Column) (acc : String × String)
    (h : ∀ x ∈ l, matchesSeq x = none) :
    l.foldl pgSeqScanStep acc = acc := by
  induction l generalizing acc with
  | nil => rfl
  | cons c r ih =>
    have hc := h c (List.mem_cons_self c r)
    have hr : ∀ x ∈ r, matchesSeq x = none := fun x hx => h x (List.mem_cons_of_mem c hx)
    rw [List.foldl_cons, pgSeqScanStep_eq, hc]
    exact ih acc hr

/-- C6: if exactly one column's (quote-stripped) default matches the
nextval pattern with sequence name n, the PostgreSQL DDL reconstruction
marks that column as the auto-increment column and the produced
definition begins with the CREATE SEQUENCE IF NOT EXISTS n START 1
line. -/
theorem c6_pg_sequence_detection (t : Pts.Table) (showC : String)
    (pre post : List Pts.Column) (c : Pts.Column) (d n : String)
    (hcols : t.Columns = pre ++ c :: post)
    (hd : c.ColumnDefault = some d)
    (hn : pgsqlSeqMatch (stripQuotes d) = some n)
    (hpre : ∀ x ∈ pre, matchesSeq x = none)
    (hpost : ∀ x ∈ post, matchesSeq x = none) :
    ∃ t' defined, SchemaPostgresql.QueryTableDefineSql (.ok showC) t = .ok (t', defined)
      ∧ t'.AutoIncrementColumn = c.Column
      ∧ ∃ rest, defined = "CREATE SEQUENCE IF NOT EXISTS " ++ n ++ " START 1;\n" ++ rest := by
  have hmc : matchesSeq c = some n := by
    unfold matchesSeq
    rw [hd]
    exact hn
  have hfold : t.Columns.foldl pgSeqScanStep ("", t.AutoIncrementColumn)
      = ("CREATE SEQUENCE IF NOT EXISTS " ++ n ++ " START 1;\n", c.Column) := by
    rw [hcols, List.foldl_append, List.foldl_cons,
      foldl_pgSeqScanStep_none pre _ hpre, pgSeqScanStep_eq, hmc]
    exact foldl_pgSeqScanStep_none post _ hpost
  have heq : SchemaPostgresql.QueryTableDefineSql (.ok showC) t
      = .ok ({ t with
               Columns := t.Columns.map pgDefaultStrip,
               AutoIncrementColumn := (t.Columns.foldl pgSeqScanStep ("", t.AutoIncrementColumn)).2,
               Defined := (t.Columns.foldl pgSeqScanStep ("", t.AutoIncrementColumn)).1 ++
                 pgReplaceDefines showC },
             (t.Columns.foldl pgSeqScanStep ("", t.AutoIncrementColumn)).1 ++
               pgReplaceDefines showC) := rfl
  refine ⟨_, _, heq, ?_, ?_⟩
  · show (t.Columns.foldl pgSeqScanStep ("", t.AutoIncrementColumn)).2 = c.Column
    rw [hfold]
  · refine ⟨pgReplaceDefines showC, ?_⟩
    show (t.Columns.foldl pgSeqScanStep ("", t.AutoIncrementColumn)).1 ++
        pgReplaceDefines showC
      = "CREATE SEQUENCE IF NOT EXISTS " ++ n ++ " START 1;\n" ++ pgReplaceDefines showC
    rw [hfold]

/-- C6 witness column: default nextval on the orders_id_seq sequence. -/
def c6column : Pts.Column :=
  { Column := "id", ColumnDefault := some "nextval('orders_id_seq'::regclass)" }

/-- C6 witness table. -/
def c6table : Pts.Table := { Table := "orders", Columns := [c6column] }

/-- C6 witness: the detection theorem at the witness table yields
auto-increment column "id" and a definition starting with the
CREATE SEQUENCE line for orders_id_seq. -/
theorem c6_witness :
    ∃ t' defined,
      SchemaPostgresql.QueryTableDefineSql (.ok "CREATE TABLE orders ();") c6table
        = .ok (t', defined)
      ∧ t'.AutoIncrementColumn = "id"
      ∧ ∃ rest,
          defined = "CREATE SEQUENCE IF NOT EXISTS orders_id_seq START 1;\n" ++ rest := by
  exact c6_pg_sequence_detection c6table "CREATE TABLE orders ();" [] []
    c6column "nextval('orders_id_seq'::regclass)" "orders_id_seq"
    rfl rfl (by decide) (by decide) (by decide)

/-! ## C10: SQLite primary-key columns as auto-increment -/

/-- A non-empty accumulator is never overwritten by the SQLite
auto-increment scan. -/
lemma foldl_sqliteAutoStep_ne (l : List Pts.Column) (acc : String) (h : ¬acc = "") :
    List.foldl sqliteAutoStep acc l = acc := by
  induction l with
  | nil => rfl
  | cons c r ih =>
    have hstep : sqliteAutoStep acc c = acc := by
      unfold sqliteAutoStep
      exact if_neg (fun hc => h hc.1)
    rw [List.foldl_cons, hstep]
    exact ih

/-- Over the columns built from PRAGMA rows with non-empty names, the
scan returns the name of the first primary-key row. -/
lemma foldl_sqliteAutoStep_first (rows : List SqliteRow) (table : String)
    (hnames : ∀ r ∈ rows, ¬r.name = "") :
    List.foldl sqliteAutoStep "" (rows.map (sqliteRowColumn table))
      = ((rows.find? (fun r => decide (0 < r.pk))).map (fun r => r.name)).getD "" := by
  induction rows with
  | nil => rfl
  | cons r rs ih =>
    have hr : ¬r.name = "" := hnames r (List.mem_cons_self r rs)
    have hrs : ∀ x ∈ rs, ¬x.name = "" := fun x hx => hnames x (List.mem_cons_of_mem r hx)
    rw [List.map_cons, List.foldl_cons]
    by_cases hp : 0 < r.pk
    · have hstep : sqliteAutoStep "" (sqliteRowColumn table r) = r.name := by
        unfold sqliteAutoStep sqliteRowColumn
        simp [hp]
      rw [hstep, foldl_sqliteAutoStep_ne _ _ hr, List.find?_cons_of_pos _ (by simpa using hp)]
      rfl
    · have hstep : sqliteAutoStep "" (sqliteRowColumn table r) = "" := by
        unfold sqliteAutoStep sqliteRowColumn
        simp [hp]
      rw [hstep, List.find?_cons_of_neg _ (by simpa using hp)]
      exact ih hrs

/-- C10: SQLite enrichment of a table with no prior auto-increment
column attaches one column per PRAGMA row, flags a column auto_increment
exactly when its row has pk greater than zero, and records the first
primary-key row's name as the table's auto-increment column. -/
theorem c10_sqlite_autoincrement (db : String → Except String (List SqliteRow))
    (t : Pts.Table) (rows : List SqliteRow)
    (hdb : db t.Table = .ok rows) (hname : ¬t.Table = "")
    (hauto : t.AutoIncrementColumn = "")
    (hnames : ∀ r ∈ rows, ¬r.name = "") :
    ∃ t', sqliteEnrichTable db t = .ok t'
      ∧ t'.Columns = rows.map (sqliteRowColumn t.Table)
      ∧ (∀ r ∈ rows, (sqliteRowColumn t.Table r).Extra
          = (if 0 < r.pk then some "auto_increment" else none))
      ∧ t'.AutoIncrementColumn
          = ((rows.find? (fun r => decide (0 < r.pk))).map (fun r => r.name)).getD "" := by
  have hq : SchemaSqlite.QueryColumns db t.Database t.Table
      = .ok (rows.map (sqliteRowColumn t.Table)) := by
    unfold SchemaSqlite.QueryColumns
    rw [if_neg hname, hdb]
  have heq : sqliteEnrichTable db t
      = .ok ({ t with
          AutoIncrementColumn := List.foldl sqliteAutoStep t.AutoIncrementColumn
            (rows.map (sqliteRowColumn t.Table)),
          Columns := rows.map (sqliteRowColumn t.Table) } : Pts.Table) := by
    unfold sqliteEnrichTable
    rw [hq]
  refine ⟨_, heq, rfl, ?_, ?_⟩
  · intro r hr
    rfl
  · show List.foldl sqliteAutoStep t.AutoIncrementColumn (rows.map (sqliteRowColumn t.Table))
      = ((rows.find? (fun r => decide (0 < r.pk))).map (fun r => r.name)).getD ""
    rw [hauto]
    exact foldl_sqliteAutoStep_first rows t.Table hnames

/-- C10 witness rows: two primary-key columns, id first. -/
def c10rows : List SqliteRow :=
  [{ cid := 0, name := "id", columnType := "INTEGER", notNull := 1, pk := 1 },
   { cid := 1, name := "k", columnType := "INTEGER", notNull := 1, pk := 2 }]

/-- C10 witness oracle. -/
def c10db : String → Except String (List SqliteRow) := fun _ => .ok c10rows

/-- C10 witness table. -/
def c10table : Pts.Table := { Table := "t" }

/-- C10 witness: with two primary-key rows the enrichment flags both
auto_increment and records the first ("id"), never the later one. -/
theorem c10_witness :
    ∃ t', sqliteEnrichTable c10db c10table = .ok t'
      ∧ t'.Columns = c10rows.map (sqliteRowColumn "t")
      ∧ (∀ r ∈ c10rows, (sqliteRowColumn "t" r).Extra
          = (if 0 < r.pk then some "auto_increment" else none))
      ∧ t'.AutoIncrementColumn = "id" := by
  obtain ⟨t', h1, h2, h3, h4⟩ :=
    c10_sqlite_autoincrement c10db c10table c10rows rfl (by decide) rfl (by decide)
  refine ⟨t', h1, h2, h3, ?_⟩
  rw [h4]
  decide

end Pts
